import Mathlib

/-
Shallow embedding of src/core/src/indexer/reorg.rs (rindexer).

Block hashes are modelled as Nat (the code only ever compares them for
equality).  u64 block numbers are modelled as Nat; the only arithmetic the
code performs on them is `saturating_sub`, which coincides with truncated
Nat subtraction, and `+ 1` on a cached block number (far below u64::MAX in
every modelled scenario).  Fallible collaborator calls (the batched RPC
query, every SQL statement) are modelled with `Except` / an explicit
success flag; a failed SQL statement leaves its target unchanged
(per-statement atomicity of the storage engines).
-/

/-- Cached block identity (`BlockMeta` in fetch_logs.rs): the code only
reads its `hash` here. -/
structure BlockMeta where
  hash : Nat
deriving DecidableEq, Repr

/-- A block header as returned by `get_block_by_number_batch`: the code
reads `header.number` and `header.hash`. -/
structure CanonicalBlock where
  number : Nat
  hash : Nat
deriving DecidableEq, Repr

/-- The LRU block cache, modelled as an association list from block number
to cached metadata; the reorg module only calls `peek` and `len` on it. -/
abbrev BlockCache := List (Nat × BlockMeta)

/-- `block_cache.peek(&block_num)`. -/
def cachePeek (cache : BlockCache) (n : Nat) : Option BlockMeta :=
  (cache.find? (fun p => p.1 == n)).map Prod.snd

/-- `ReorgInfo { fork_block, depth }` from fetch_logs.rs. -/
structure ReorgInfo where
  fork_block : Nat
  depth : Nat
deriving DecidableEq, Repr

/-- `ChainStateNotification` (notifications module), the tagged union the
classifier matches on. -/
inductive ChainStateNotification where
  | Reorged (revert_from_block revert_to_block new_from_block new_to_block
      new_tip_hash : Nat)
  | Reverted (from_block to_block : Nat)
  | Committed (from_block to_block tip_hash : Nat)
deriving DecidableEq, Repr

/-- One `metrics::record_reorg(network, depth)` call: (network, depth). -/
abbrev MetricEvent := String × Nat

/-- `handle_chain_notification` (reorg.rs:23-70).  The Rust function
returns `Option<ReorgInfo>` and calls the metrics sink as a side effect;
the embedding returns the result paired with the list of recorded metric
events.  `saturating_sub` on u64 is truncated Nat subtraction. -/
def handle_chain_notification (notification : ChainStateNotification)
    (info_log_name : String) (network : String) :
    Option ReorgInfo × List MetricEvent :=
  match notification with
  | .Reorged revert_from_block revert_to_block _ _ _ =>
      let depth := revert_from_block - revert_to_block
      (some ⟨revert_to_block, depth⟩, [(network, depth)])
  | .Reverted from_block to_block =>
      let depth := from_block - to_block
      (some ⟨to_block, depth⟩, [(network, depth)])
  | .Committed _ _ _ => (none, [])

/-- `reorg_safe_distance_for_chain` (reorg.rs:72-78). -/
def reorg_safe_distance_for_chain (chain_id : Nat) : Nat :=
  if chain_id = 1 then 12 else 64

/-- The descending number range `(scan_end..=scan_start).rev()` the
candidate-collection loop iterates over: scan_start, scan_start-1, ...,
scan_end. -/
def scanRange (scan_end scan_start : Nat) : List Nat :=
  (List.range (scan_start + 1 - scan_end)).map (fun i => scan_start - i)

/-- The candidate-collection loop body of `find_fork_point`
(reorg.rs:95-102): push each scanned number present in the cache, stop
once 64 candidates are collected. -/
def collectLoop (cache : BlockCache) : List Nat → List Nat → List Nat
  | [], acc => acc
  | n :: rest, acc =>
      let acc' := if (cachePeek cache n).isSome then acc ++ [n] else acc
      if 64 ≤ acc'.length then acc' else collectLoop cache rest acc'

/-- `blocks_to_check` as computed by `find_fork_point` (reorg.rs:91-102):
walk backwards from `reorged_block - 1` over a window of `cache.len() + 64`
numbers, collecting at most 64 cached block numbers, newest first. -/
def blocksToCheck (cache : BlockCache) (reorged_block : Nat) : List Nat :=
  let max_scan := cache.length + 64
  let scan_start := reorged_block - 1
  let scan_end := scan_start - max_scan
  collectLoop cache (scanRange scan_end scan_start) []

/-- The match loop of `find_fork_point` (reorg.rs:112-126): walk the
returned canonical blocks in order; for the first one whose cached hash
equals its canonical hash, return `block_num + 1`. -/
def scanCanonical (cache : BlockCache) : List CanonicalBlock → Option Nat
  | [] => none
  | b :: rest =>
      match cachePeek cache b.number with
      | some cached =>
          if cached.hash = b.hash then some (b.number + 1)
          else scanCanonical cache rest
      | none => scanCanonical cache rest

/-- The authoritative-chain collaborator:
`provider.get_block_by_number_batch(&blocks_to_check, false)`. -/
abbrev Provider := List Nat → Except Unit (List CanonicalBlock)

/-- `find_fork_point` (reorg.rs:84-141). -/
def find_fork_point (cache : BlockCache) (provider : Provider)
    (reorged_block : Nat) : Nat :=
  let blocks_to_check := blocksToCheck cache reorged_block
  if blocks_to_check.isEmpty then reorged_block
  else
    match provider blocks_to_check with
    | .ok canonical_blocks =>
        match scanCanonical cache canonical_blocks with
        | some fork => fork
        | none => (blocks_to_check.getLast?).getD reorged_block
    | .error _ => reorged_block - 1

/-- One stored event row: the columns the recovery statements mention. -/
structure EventRow where
  block_number : Nat
  network : String
deriving DecidableEq, Repr

/-- One checkpoint row of a `rindexer_internal` table:
(network, last_synced_block). -/
structure CheckpointRow where
  network : String
  last_synced_block : Nat
deriving DecidableEq, Repr

/-- The PostgreSQL backend state for one indexing target: the event table
`schema.event_table` and its checkpoint table
`rindexer_internal.<internal_table>`. -/
structure PostgresState where
  events : List EventRow
  checkpoints : List CheckpointRow
deriving DecidableEq, Repr

/-- The ClickHouse backend state for one indexing target.  Its checkpoint
table is written by INSERT only, so it is modelled as an append-only log
of inserted rows. -/
structure ClickhouseState where
  events : List EventRow
  checkpoint_log : List CheckpointRow
deriving DecidableEq, Repr

/-- `delete_events_postgres` (reorg.rs:175-192): executes
`DELETE FROM schema.table WHERE block_number >= fork_block AND
network = 'network'`.  `ok` is the outcome of `batch_execute`; on failure
the error is logged and the state is unchanged. -/
def delete_events_postgres (ok : Bool) (pg : PostgresState)
    (fork_block : Nat) (network : String) : PostgresState :=
  if ok then
    let kept := pg.events.filter
      (fun r => !(decide (fork_block ≤ r.block_number) &&
                  decide (r.network = network)))
    { pg with events := kept }
  else pg

/-- `delete_events_clickhouse` (reorg.rs:194-214): executes
`ALTER TABLE schema.table DELETE WHERE block_number >= fork_block
SETTINGS mutations_sync = 1`.  Note: no network predicate appears in the
statement and the function takes no network argument. -/
def delete_events_clickhouse (ok : Bool) (ch : ClickhouseState)
    (fork_block : Nat) : ClickhouseState :=
  if ok then
    let kept := ch.events.filter (fun r => !decide (fork_block ≤ r.block_number))
    { ch with events := kept }
  else ch

/-- `rewind_checkpoint_postgres` (reorg.rs:216-236): executes
`UPDATE rindexer_internal.<table> SET last_synced_block = rewind_block
WHERE network = 'network'` (in-place update of every matching row). -/
def rewind_checkpoint_postgres (ok : Bool) (pg : PostgresState)
    (rewind_block : Nat) (network : String) : PostgresState :=
  if ok then
    let updated := pg.checkpoints.map
      (fun c => if c.network = network then
          { c with last_synced_block := rewind_block } else c)
    { pg with checkpoints := updated }
  else pg

/-- `rewind_checkpoint_clickhouse` (reorg.rs:238-258): executes
`INSERT INTO rindexer_internal.<table> (network, last_synced_block)
VALUES ('network', rewind_block)` — appends a new checkpoint record. -/
def rewind_checkpoint_clickhouse (ok : Bool) (ch : ClickhouseState)
    (rewind_block : Nat) (network : String) : ClickhouseState :=
  if ok then
    { ch with checkpoint_log := ch.checkpoint_log ++ [⟨network, rewind_block⟩] }
  else ch

/-- Modelled from the spec: the ClickHouse checkpoint table is an
append-style checkpoint log where "the latest inserted value for a key
wins"; the table engine implementing that read semantics lives outside
this module, so the value a subsequent reader observes for a network is
modelled from the spec's words as the last inserted row for that
network. -/
def clickhouse_observed_checkpoint (log : List CheckpointRow)
    (network : String) : Option Nat :=
  ((log.filter (fun c => decide (c.network = network))).getLast?).map
    (fun c => c.last_synced_block)

/-- Success/failure outcome of each of the four storage statements a full
recovery can issue (the execution oracle for the storage collaborators). -/
structure ExecOracle where
  pgDeleteOk : Bool
  pgRewindOk : Bool
  chDeleteOk : Bool
  chRewindOk : Bool
deriving DecidableEq, Repr

/-- The configured storage backends and their state: `config.postgres()`
and `config.clickhouse()` are each optional. -/
structure RecoveryState where
  postgres : Option PostgresState
  clickhouse : Option ClickhouseState
deriving DecidableEq, Repr

/-- `handle_reorg_recovery` (reorg.rs:144-173): for each configured
backend, delete events from `fork_block` then rewind the checkpoint to
`fork_block.saturating_sub(1)`; statement failures are logged and do not
stop the sequence. -/
def handle_reorg_recovery (o : ExecOracle) (network : String)
    (st : RecoveryState) (reorg : ReorgInfo) : RecoveryState :=
  let fork_block := reorg.fork_block
  let rewind_block := fork_block - 1
  let pg := st.postgres.map (fun p =>
    rewind_checkpoint_postgres o.pgRewindOk
      (delete_events_postgres o.pgDeleteOk p fork_block network)
      rewind_block network)
  let ch := st.clickhouse.map (fun c =>
    rewind_checkpoint_clickhouse o.chRewindOk
      (delete_events_clickhouse o.chDeleteOk c fork_block)
      rewind_block network)
  { postgres := pg, clickhouse := ch }

/-- `handle_native_transfer_reorg_recovery` (reorg.rs:261-285):
PostgreSQL only, with the fixed identity schema =
`<indexer>_evm_traces`, event table and checkpoint event name both the
literal string held in `nativeTransferEventName`. -/
def handle_native_transfer_reorg_recovery (deleteOk rewindOk : Bool)
    (network : String) (postgres : Option PostgresState)
    (fork_block : Nat) : Option PostgresState :=
  let rewind_block := fork_block - 1
  postgres.map (fun pg =>
    rewind_checkpoint_postgres rewindOk
      (delete_events_postgres deleteOk pg fork_block network)
      rewind_block network)

/-- The fixed event identity of the native-transfer recovery path
(hardcoded in reorg.rs:268 and 279). -/
def nativeTransferEventName : String := "native_transfer"

/-- The per-candidate match test the locator's scan performs: the cached
hash (when present) equals the authoritative hash `auth n`. -/
def matchPred (cache : BlockCache) (auth : Nat → Nat) (n : Nat) : Bool :=
  match cachePeek cache n with
  | some cached => decide (cached.hash = auth n)
  | none => false

/-- A provider that answers a batched query in request order, reporting
authoritative hash `auth n` for block `n`. -/
def orderedProvider (auth : Nat → Nat) : Provider :=
  fun ns => Except.ok (ns.map (fun m => ⟨m, auth m⟩))

/-- Network names used by concrete scenarios. -/
def netEth : String := "eth"

def netOther : String := "other"

def logName : String := "log"

/-- All four storage statements succeed. -/
def allOk : ExecOracle := ⟨true, true, true, true⟩

/-- The PostgreSQL delete statement fails; everything else succeeds. -/
def pgDeleteFails : ExecOracle := ⟨false, true, true, true⟩

/-- Scenario B cache: {90 : hashA, 91 : hashB, 92 : hashC}. -/
def cacheB : BlockCache := [(90, ⟨1000⟩), (91, ⟨1001⟩), (92, ⟨1002⟩)]

/-- Scenario B authoritative chain: 92 diverged, 91 and 90 still match. -/
def authB : Nat → Nat :=
  fun n => if n = 91 then 1001 else if n = 90 then 1000 else 9999

/-- A one-entry cache holding block 5 with hash 7. -/
def cacheOne : BlockCache := [(5, ⟨7⟩)]

/-- A provider whose answer mismatches every cached hash of `cacheOne`. -/
def mismatchProvider : Provider := fun _ => Except.ok [⟨5, 8⟩]

/-- A provider whose batched query always fails. -/
def errProvider : Provider := fun _ => Except.error ()

/-- A cache holding block 0, for the `reorged_block = 0` edge case. -/
def cacheZero : BlockCache := [(0, ⟨5⟩)]

/-- A provider agreeing with `cacheZero` on block 0. -/
def providerZero : Provider := fun _ => Except.ok [⟨0, 5⟩]

/-- ClickHouse state holding one event row of a foreign network. -/
def chForeignRow : ClickhouseState :=
  { events := [⟨100, netOther⟩], checkpoint_log := [] }

/-- Recovery state with only ClickHouse configured, holding a foreign-network
row. -/
def stForeignRow : RecoveryState :=
  { postgres := none, clickhouse := some chForeignRow }

/-- PostgreSQL state with one deletable event row and one checkpoint row. -/
def pgOneRow : PostgresState :=
  { events := [⟨100, netEth⟩], checkpoints := [⟨netEth, 100⟩] }

/-- Recovery state with only PostgreSQL configured. -/
def stPgOnly : RecoveryState := { postgres := some pgOneRow, clickhouse := none }

/-- ClickHouse state with an existing checkpoint record. -/
def chOneCk : ClickhouseState := { events := [], checkpoint_log := [⟨netEth, 100⟩] }

theorem collectLoop_nil_cache (l acc : List Nat) : collectLoop [] l acc = acc := by
  induction l generalizing acc with
  | nil => rfl
  | cons n rest ih =>
      simp only [collectLoop, cachePeek, List.find?_nil, Option.map_none',
        Option.isSome_none, Bool.false_eq_true, if_false]
      split
      · rfl
      · exact ih acc

theorem collectLoop_append (cache : BlockCache) (l : List Nat) :
    ∀ acc : List Nat, ∃ l', collectLoop cache l acc = acc ++ l' ∧ l'.Sublist l := by
  induction l with
  | nil => exact fun acc => ⟨[], by simp [collectLoop], List.Sublist.refl []⟩
  | cons n rest ih =>
      intro acc
      by_cases hpeek : (cachePeek cache n).isSome
      · have hstep : collectLoop cache (n :: rest) acc =
            (if 64 ≤ (acc ++ [n]).length then acc ++ [n]
             else collectLoop cache rest (acc ++ [n])) := by
          simp only [collectLoop, if_pos hpeek]
        by_cases hlen : 64 ≤ (acc ++ [n]).length
        · exact ⟨[n], by rw [hstep, if_pos hlen],
            List.Sublist.cons₂ n (List.nil_sublist rest)⟩
        · obtain ⟨l', heq, hsub⟩ := ih (acc ++ [n])
          exact ⟨n :: l', by rw [hstep, if_neg hlen, heq, List.append_assoc,
            List.singleton_append], List.Sublist.cons₂ n hsub⟩
      · have hstep : collectLoop cache (n :: rest) acc =
            (if 64 ≤ acc.length then acc else collectLoop cache rest acc) := by
          simp only [collectLoop, if_neg hpeek]
        by_cases hlen : 64 ≤ acc.length
        · exact ⟨[], by rw [hstep, if_pos hlen]; simp, List.nil_sublist _⟩
        · obtain ⟨l', heq, hsub⟩ := ih acc
          exact ⟨l', by rw [hstep, if_neg hlen, heq], List.Sublist.cons n hsub⟩

theorem blocksToCheck_sublist (cache : BlockCache) (rb : Nat) :
    (blocksToCheck cache rb).Sublist
      (scanRange ((rb - 1) - (cache.length + 64)) (rb - 1)) := by
  obtain ⟨l', heq, hsub⟩ :=
    collectLoop_append cache (scanRange ((rb - 1) - (cache.length + 64)) (rb - 1)) []
  simp only [List.nil_append] at heq
  simpa [blocksToCheck, heq] using hsub

theorem scanRange_mem_le (e s n : Nat) (h : n ∈ scanRange e s) : n ≤ s := by
  simp only [scanRange, List.mem_map, List.mem_range] at h
  obtain ⟨i, _, rfl⟩ := h
  exact Nat.sub_le s i

theorem blocksToCheck_le (cache : BlockCache) (rb : Nat) :
    ∀ n ∈ blocksToCheck cache rb, n ≤ rb - 1 := fun n hn =>
  scanRange_mem_le _ _ n ((blocksToCheck_sublist cache rb).subset hn)

theorem scanRange_pairwise (e s : Nat) :
    (scanRange e s).Pairwise (fun a b => a > b) := by
  rw [List.pairwise_iff_getElem]
  intro i j hi hj hij
  have hi' : i < s + 1 - e := by simpa [scanRange] using hi
  have hj' : j < s + 1 - e := by simpa [scanRange] using hj
  have e1 : (scanRange e s)[i] = s - i := by simp [scanRange]
  have e2 : (scanRange e s)[j] = s - j := by simp [scanRange]
  rw [e1, e2]
  omega

theorem blocksToCheck_pairwise (cache : BlockCache) (rb : Nat) :
    (blocksToCheck cache rb).Pairwise (fun a b => a > b) :=
  List.Pairwise.sublist (blocksToCheck_sublist cache rb) (scanRange_pairwise _ _)

theorem getLast_getD_min (d : Nat) :
    ∀ l : List Nat, l.Pairwise (fun a b => a > b) →
      ∀ m ∈ l, l.getLast?.getD d ≤ m := by
  intro l
  induction l with
  | nil => intro _ m hm; cases hm
  | cons a t ih =>
      intro hp m hm
      obtain ⟨ha, hp'⟩ := List.pairwise_cons.mp hp
      cases t with
      | nil =>
          simp only [List.mem_singleton] at hm
          subst hm
          simp [List.getLast?]
      | cons b t' =>
          have hlast : (a :: b :: t').getLast? = (b :: t').getLast? := rfl
          rcases List.mem_cons.mp hm with rfl | hm'
          · obtain ⟨x, hx⟩ := Option.isSome_iff_exists.mp
              (List.getLast?_isSome.mpr (List.cons_ne_nil b t'))
            have hxm : x ∈ b :: t' := List.mem_of_mem_getLast? hx
            have : m > x := ha x hxm
            rw [hlast, hx]
            exact le_of_lt this
          · rw [hlast]
            exact ih hp' m hm'

theorem scanCanonical_eq_some (cache : BlockCache) :
    ∀ (bs : List CanonicalBlock) (fp : Nat), scanCanonical cache bs = some fp →
      ∃ b ∈ bs, fp = b.number + 1 := by
  intro bs
  induction bs with
  | nil => intro fp h; simp [scanCanonical] at h
  | cons b rest ih =>
      intro fp h
      simp only [scanCanonical] at h
      split at h
      · split at h
        · exact ⟨b, List.mem_cons_self b rest, (Option.some_inj.mp h).symm⟩
        · obtain ⟨b', hb', he⟩ := ih fp h
          exact ⟨b', List.mem_cons_of_mem b hb', he⟩
      · obtain ⟨b', hb', he⟩ := ih fp h
        exact ⟨b', List.mem_cons_of_mem b hb', he⟩

theorem scanCanonical_eq_none (cache : BlockCache) :
    ∀ bs : List CanonicalBlock,
      (∀ b ∈ bs, ∀ c, cachePeek cache b.number = some c → c.hash ≠ b.hash) →
      scanCanonical cache bs = none := by
  intro bs
  induction bs with
  | nil => intro _; rfl
  | cons b rest ih =>
      intro h
      simp only [scanCanonical]
      split
      next cached heq =>
        rw [if_neg (h b (List.mem_cons_self b rest) cached heq)]
        exact ih (fun b' hb' => h b' (List.mem_cons_of_mem b hb'))
      next heq => exact ih (fun b' hb' => h b' (List.mem_cons_of_mem b hb'))

theorem scanCanonical_map_eq (cache : BlockCache) (auth : Nat → Nat) :
    ∀ ns : List Nat,
      scanCanonical cache (ns.map (fun m => ⟨m, auth m⟩)) =
        (ns.find? (matchPred cache auth)).map (fun n => n + 1) := by
  intro ns
  induction ns with
  | nil => rfl
  | cons n rest ih =>
      simp only [List.map_cons, scanCanonical, List.find?_cons]
      cases hp : cachePeek cache n with
      | some cached =>
          by_cases hh : cached.hash = auth n
          · have hm : matchPred cache auth n = true := by
              simp [matchPred, hp, hh]
            rw [hm]
            simp [hh]
          · have hm : matchPred cache auth n = false := by
              simp [matchPred, hp, hh]
            rw [hm]
            simp [hh, ih]
      | none =>
          have hm : matchPred cache auth n = false := by
            simp [matchPred, hp]
          rw [hm]
          simp [ih]

theorem filter_self_idem {α : Type} (p : α → Bool) (l : List α) :
    (l.filter p).filter p = l.filter p := by
  induction l with
  | nil => rfl
  | cons a t ih => cases h : p a <;> simp [List.filter_cons, h, ih]

theorem rewind_map_idem (rb2 : Nat) (network : String) (l : List CheckpointRow) :
    ((l.map (fun c => if c.network = network then
        { c with last_synced_block := rb2 } else c)).map
      (fun c => if c.network = network then
        { c with last_synced_block := rb2 } else c)) =
    l.map (fun c => if c.network = network then
        { c with last_synced_block := rb2 } else c) := by
  induction l with
  | nil => rfl
  | cons c t ih =>
      by_cases h : c.network = network <;> simp [List.map_cons, h, ih]

theorem observed_after_insert (log : List CheckpointRow) (network : String)
    (v : Nat) :
    clickhouse_observed_checkpoint (log ++ [⟨network, v⟩]) network = some v := by
  simp [clickhouse_observed_checkpoint, List.filter_append, List.getLast?_concat]

/-- Claim C9: when the backward scan collects no cached candidate block
numbers, `find_fork_point` returns the suspected block unchanged, for
every provider — the result does not depend on the provider, so the
authoritative chain is not consulted.  The empty-cache case is an
instance (witnessed below). -/
theorem claim_C9_no_candidates (cache : BlockCache) (provider : Provider)
    (reorged_block : Nat)
    (h : blocksToCheck cache reorged_block = []) :
    find_fork_point cache provider reorged_block = reorged_block := by
  simp [find_fork_point, h]

/-- Witness for claim C9: with an empty cache no candidates are collected
and the locator returns the input block 5 unchanged, here under a provider
that would fail if it were ever queried. -/
theorem claim_C9_no_candidates_witness :
    blocksToCheck ([] : BlockCache) 5 = [] ∧
    find_fork_point ([] : BlockCache) errProvider 5 = 5 :=
  ⟨by decide, claim_C9_no_candidates [] errProvider 5 (by decide)⟩

/-- Claim C7: whenever the batched authoritative query fails (it is issued
only when at least one candidate exists), `find_fork_point` returns
`reorged_block - 1` (truncated, as `saturating_sub` in the source); the
function is total — no error outcome is propagated to the caller. -/
theorem claim_C7_query_failure (cache : BlockCache) (provider : Provider)
    (reorged_block : Nat) (e : Unit)
    (hne : blocksToCheck cache reorged_block ≠ [])
    (hq : provider (blocksToCheck cache reorged_block) = Except.error e) :
    find_fork_point cache provider reorged_block = reorged_block - 1 := by
  simp [find_fork_point, List.isEmpty_iff, hne, hq]

/-- Witness for claim C7: a failing provider makes the locator fall back
to the suspected block minus one (6 becomes 5). -/
theorem claim_C7_query_failure_witness :
    blocksToCheck cacheOne 6 ≠ [] ∧
    find_fork_point cacheOne errProvider 6 = 5 :=
  ⟨by decide, claim_C7_query_failure cacheOne errProvider 6 () (by decide) rfl⟩

/-- Claim C5: when the provider answers the batched query in request order
(the candidate list is built newest-to-oldest), the locator returns
`n + 1` for the first candidate `n` — `List.find?`, i.e. the newest one,
short-circuiting past older candidates — whose cached hash equals its
authoritative hash.  Scenario B of the spec is the witness below. -/
theorem claim_C5_newest_match_wins (cache : BlockCache) (auth : Nat → Nat)
    (reorged_block n : Nat)
    (h : (blocksToCheck cache reorged_block).find? (matchPred cache auth) =
      some n) :
    find_fork_point cache (orderedProvider auth) reorged_block = n + 1 := by
  have hne : blocksToCheck cache reorged_block ≠ [] := by
    intro h0
    rw [h0] at h
    simp at h
  simp [find_fork_point, List.isEmpty_iff, hne, orderedProvider,
    scanCanonical_map_eq, h]

/-- Witness for claim C5, scenario B: cache {90 : hashA, 91 : hashB,
92 : hashC}; the authoritative chain mismatches at 92 and matches at 91
(and would also match at 90, which is never examined); the locator
returns 92. -/
theorem claim_C5_newest_match_wins_witness :
    (blocksToCheck cacheB 93).find? (matchPred cacheB authB) = some 91 ∧
    find_fork_point cacheB (orderedProvider authB) 93 = 92 :=
  ⟨by decide, claim_C5_newest_match_wins cacheB authB 93 91 (by decide)⟩

/-- Claim C6: when the batched query succeeds but no returned block's
authoritative hash equals its cached hash, the locator returns the oldest
candidate scanned — the last entry of the newest-first candidate list,
which is also the minimum of every candidate scanned. -/
theorem claim_C6_full_mismatch_oldest (cache : BlockCache)
    (provider : Provider) (reorged_block : Nat) (bs : List CanonicalBlock)
    (hne : blocksToCheck cache reorged_block ≠ [])
    (hq : provider (blocksToCheck cache reorged_block) = Except.ok bs)
    (hmis : ∀ b ∈ bs, ∀ c, cachePeek cache b.number = some c →
      c.hash ≠ b.hash) :
    ∃ oldest, (blocksToCheck cache reorged_block).getLast? = some oldest ∧
      find_fork_point cache provider reorged_block = oldest ∧
      ∀ m ∈ blocksToCheck cache reorged_block, oldest ≤ m := by
  have hnone := scanCanonical_eq_none cache bs hmis
  obtain ⟨oldest, holdest⟩ :=
    Option.isSome_iff_exists.mp (List.getLast?_isSome.mpr hne)
  refine ⟨oldest, holdest, ?_, ?_⟩
  · simp [find_fork_point, List.isEmpty_iff, hne, hq, hnone, holdest]
  · intro m hm
    have hmin := getLast_getD_min reorged_block _
      (blocksToCheck_pairwise cache reorged_block) m hm
    rwa [holdest, Option.getD_some] at hmin

/-- Witness for claim C6: the single candidate 5 mismatches the
authoritative hash, and the locator falls back to the oldest (only)
candidate, 5. -/
theorem claim_C6_full_mismatch_oldest_witness :
    ∃ oldest, (blocksToCheck cacheOne 6).getLast? = some oldest ∧
      find_fork_point cacheOne mismatchProvider 6 = oldest ∧
      ∀ m ∈ blocksToCheck cacheOne 6, oldest ≤ m :=
  claim_C6_full_mismatch_oldest cacheOne mismatchProvider 6 [⟨5, 8⟩]
    (by decide) rfl
    (by
      intro b hb c hc
      simp only [List.mem_singleton] at hb
      subst hb
      simp only [cachePeek, cacheOne, List.find?_cons] at hc
      simp at hc
      subst hc
      decide)

/-- Claim C10 fails as stated at `reorged_block = 0`: the backward scan
starts at `0.saturating_sub(1) = 0`, i.e. at the suspected block itself;
with block 0 cached and confirmed canonical the locator returns 1 > 0,
even though the provider only returned requested candidate numbers. -/
theorem claim_C10_counterexample :
    providerZero (blocksToCheck cacheZero 0) = Except.ok [⟨0, 5⟩] ∧
    (0 : Nat) ∈ blocksToCheck cacheZero 0 ∧
    ¬ (find_fork_point cacheZero providerZero 0 ≤ 0) :=
  ⟨rfl, by decide, by decide⟩

/-- Claim C10 (amended): for every suspected block of at least 1, under
the precondition that every block record the provider returns carries a
number among the requested candidates, the locator's result never exceeds
the suspected block, on all four paths (match, full mismatch, no
candidates, query failure). -/
theorem claim_C10_amended_never_forward (cache : BlockCache)
    (provider : Provider) (reorged_block : Nat) (h1 : 1 ≤ reorged_block)
    (hres : ∀ bs, provider (blocksToCheck cache reorged_block) =
        Except.ok bs →
      ∀ b ∈ bs, b.number ∈ blocksToCheck cache reorged_block) :
    find_fork_point cache provider reorged_block ≤ reorged_block := by
  by_cases hne : blocksToCheck cache reorged_block = []
  · simp [find_fork_point, hne]
  · cases hp : provider (blocksToCheck cache reorged_block) with
    | error e =>
        simp only [find_fork_point, List.isEmpty_iff, hne, if_false, hp]
        omega
    | ok bs =>
        cases hs : scanCanonical cache bs with
        | some fp =>
            obtain ⟨b, hb, rfl⟩ := scanCanonical_eq_some cache bs fp hs
            have hle := blocksToCheck_le cache reorged_block _
              (hres bs hp b hb)
            simp only [find_fork_point, List.isEmpty_iff, hne, if_false, hp, hs]
            omega
        | none =>
            obtain ⟨oldest, ho⟩ :=
              Option.isSome_iff_exists.mp (List.getLast?_isSome.mpr hne)
            have hle := blocksToCheck_le cache reorged_block oldest
              (List.mem_of_mem_getLast? ho)
            simp only [find_fork_point, List.isEmpty_iff, hne, if_false, hp, hs,
              ho, Option.getD_some]
            omega

/-- Witness for the amended claim C10, at suspected block 6 with a failing
provider (the precondition about returned numbers holds vacuously). -/
theorem claim_C10_amended_never_forward_witness :
    1 ≤ 6 ∧ find_fork_point cacheOne errProvider 6 ≤ 6 :=
  ⟨by decide, claim_C10_amended_never_forward cacheOne errProvider 6
    (by decide) (fun bs h => nomatch h)⟩

/-- Claim C8: the classifier maps `Reorged` to a descriptor with
`fork_block = revert_to_block` and depth `revert_from_block` saturating-
minus `revert_to_block`, recording exactly one reorg metric; symmetrically
for `Reverted`; `Committed` yields no descriptor and records no metric;
and when the "to" block exceeds the "from" block the depth saturates to
zero instead of underflowing. -/
theorem claim_C8_classifier (rf rt nf nt tiph fb tb th : Nat)
    (name network : String) :
    handle_chain_notification (.Reorged rf rt nf nt tiph) name network =
      (some ⟨rt, rf - rt⟩, [(network, rf - rt)]) ∧
    handle_chain_notification (.Reverted rf rt) name network =
      (some ⟨rt, rf - rt⟩, [(network, rf - rt)]) ∧
    handle_chain_notification (.Committed fb tb th) name network =
      (none, []) ∧
    (rf ≤ rt →
      handle_chain_notification (.Reorged rf rt nf nt tiph) name network =
        (some ⟨rt, 0⟩, [(network, 0)]) ∧
      handle_chain_notification (.Reverted rf rt) name network =
        (some ⟨rt, 0⟩, [(network, 0)])) := by
  refine ⟨rfl, rfl, rfl, fun hle => ?_⟩
  have hz : rf - rt = 0 := Nat.sub_eq_zero_of_le hle
  constructor <;> simp [handle_chain_notification, hz]

/-- Witness for claim C8: a `Reorged` notification whose "to" block (10)
exceeds its "from" block (3) classifies with a saturated depth of 0 and a
single metric event of depth 0. -/
theorem claim_C8_classifier_witness :
    handle_chain_notification (.Reorged 3 10 0 0 0) logName netEth =
      (some ⟨10, 0⟩, [(netEth, 0)]) :=
  ((claim_C8_classifier 3 10 0 0 0 0 0 0 logName netEth).2.2.2 (by decide)).1

/-- Claim C1 fails on the ClickHouse backend: its delete statement carries
no network predicate, so a recovery targeting `netEth` at fork block 50
deletes a stored row that belongs to the different network `netOther` —
the deleted rows are not exactly those with `block_number >= fork_block`
and the target network. -/
theorem claim_C1_counterexample :
    (handle_reorg_recovery allOk netEth stForeignRow ⟨50, 1⟩).clickhouse =
      some ⟨[], [⟨netEth, 49⟩]⟩ ∧
    netOther ≠ netEth := by
  constructor
  · decide
  · decide

/-- Claim C1 (amended): with every statement succeeding, a row survives
the PostgreSQL delete issued by `recover` iff it was present and not
(`block_number ≥ fork_block` and of the target network) — the network
predicate is row-level there — while a row survives the ClickHouse delete
iff it was present and `block_number < fork_block`: the ClickHouse delete
statement filters by block number only and is network-agnostic. -/
theorem claim_C1_amended_delete_predicates (pg : PostgresState)
    (ch : ClickhouseState) (network : String) (f d : Nat) (r : EventRow) :
    (∃ pg', (handle_reorg_recovery allOk network
        ⟨some pg, some ch⟩ ⟨f, d⟩).postgres = some pg' ∧
      (r ∈ pg'.events ↔
        r ∈ pg.events ∧ ¬ (f ≤ r.block_number ∧ r.network = network))) ∧
    (∃ ch', (handle_reorg_recovery allOk network
        ⟨some pg, some ch⟩ ⟨f, d⟩).clickhouse = some ch' ∧
      (r ∈ ch'.events ↔ r ∈ ch.events ∧ r.block_number < f)) := by
  constructor
  · refine ⟨_, rfl, ?_⟩
    simp only [handle_reorg_recovery, allOk, rewind_checkpoint_postgres,
      delete_events_postgres, if_pos, List.mem_filter]
    apply and_congr_right
    intro _
    by_cases hnet : r.network = network <;> simp [hnet]
  · refine ⟨_, rfl, ?_⟩
    simp only [handle_reorg_recovery, allOk, rewind_checkpoint_clickhouse,
      delete_events_clickhouse, if_pos, List.mem_filter]
    simp [Nat.not_le, and_congr_right_iff]

/-- Claim C2 fails as stated: with the PostgreSQL delete failing and every
other statement succeeding, recovery at fork block 50 leaves the event
rows untouched but still rewinds the checkpoint from 100 to 49 — a
further mutation is applied to that backend after the failure, so the
backend is not left in its pre-mutation state. -/
theorem claim_C2_counterexample :
    (handle_reorg_recovery pgDeleteFails netEth stPgOnly ⟨50, 1⟩).postgres =
      some ⟨[⟨100, netEth⟩], [⟨netEth, 49⟩]⟩ ∧
    (⟨[⟨100, netEth⟩], [⟨netEth, 49⟩]⟩ : PostgresState) ≠ pgOneRow := by
  constructor
  · decide
  · decide

/-- Claim C2 (amended): a failed statement leaves its own target unchanged
(here, the failed PostgreSQL delete leaves the event rows untouched), but
the remaining mutation on the same backend is still attempted — the
checkpoint rewind runs exactly as its own outcome dictates — and the
ClickHouse backend's processing is entirely independent of the PostgreSQL
statement outcomes. -/
theorem claim_C2_amended_failure_isolation (o o' : ExecOracle)
    (pg : PostgresState) (chOpt : Option ClickhouseState) (network : String)
    (f d : Nat) (hfail : o.pgDeleteOk = false)
    (hch1 : o.chDeleteOk = o'.chDeleteOk)
    (hch2 : o.chRewindOk = o'.chRewindOk) :
    (∃ pg', (handle_reorg_recovery o network
        ⟨some pg, chOpt⟩ ⟨f, d⟩).postgres = some pg' ∧
      pg'.events = pg.events ∧
      pg'.checkpoints =
        (rewind_checkpoint_postgres o.pgRewindOk pg (f - 1) network).checkpoints) ∧
    (handle_reorg_recovery o network ⟨some pg, chOpt⟩ ⟨f, d⟩).clickhouse =
      (handle_reorg_recovery o' network ⟨some pg, chOpt⟩ ⟨f, d⟩).clickhouse := by
  refine ⟨⟨_, rfl, ?_, ?_⟩, ?_⟩
  · simp only [handle_reorg_recovery, delete_events_postgres, hfail,
      Bool.false_eq_true, if_false]
    cases hr : o.pgRewindOk <;>
      simp [rewind_checkpoint_postgres, hr]
  · simp only [handle_reorg_recovery, delete_events_postgres, hfail,
      Bool.false_eq_true, if_false]
  · simp only [handle_reorg_recovery, hch1, hch2]

/-- Witness for the amended claim C2: the PostgreSQL delete fails, the
event row survives, the checkpoint is still rewound, and the ClickHouse
outcome equals the one of a fully successful recovery. -/
theorem claim_C2_amended_failure_isolation_witness :
    (∃ pg', (handle_reorg_recovery pgDeleteFails netEth
        ⟨some pgOneRow, some chOneCk⟩ ⟨50, 1⟩).postgres = some pg' ∧
      pg'.events = pgOneRow.events ∧
      pg'.checkpoints =
        (rewind_checkpoint_postgres pgDeleteFails.pgRewindOk pgOneRow 49
          netEth).checkpoints) ∧
    (handle_reorg_recovery pgDeleteFails netEth
        ⟨some pgOneRow, some chOneCk⟩ ⟨50, 1⟩).clickhouse =
      (handle_reorg_recovery allOk netEth
        ⟨some pgOneRow, some chOneCk⟩ ⟨50, 1⟩).clickhouse :=
  claim_C2_amended_failure_isolation pgDeleteFails allOk pgOneRow
    (some chOneCk) netEth 50 1 rfl rfl rfl

/-- Claim C3: with every statement succeeding, running `recover` twice
with the same descriptor equals running it once: the PostgreSQL state is
literally identical (delete and in-place update are idempotent), the
ClickHouse event rows are identical, and the ClickHouse checkpoint value
observed by any reader (latest inserted record for the network) is
identical — the second call re-inserts the same checkpoint value, so no
observable state changes and no statement fails. -/
theorem claim_C3_recover_idempotent (network : String) (st : RecoveryState)
    (reorg : ReorgInfo) :
    (handle_reorg_recovery allOk network
        (handle_reorg_recovery allOk network st reorg) reorg).postgres =
      (handle_reorg_recovery allOk network st reorg).postgres ∧
    (handle_reorg_recovery allOk network
        (handle_reorg_recovery allOk network st reorg) reorg).clickhouse.map
        ClickhouseState.events =
      (handle_reorg_recovery allOk network st reorg).clickhouse.map
        ClickhouseState.events ∧
    (handle_reorg_recovery allOk network
        (handle_reorg_recovery allOk network st reorg) reorg).clickhouse.map
        (fun ch => clickhouse_observed_checkpoint ch.checkpoint_log network) =
      (handle_reorg_recovery allOk network st reorg).clickhouse.map
        (fun ch => clickhouse_observed_checkpoint ch.checkpoint_log network) := by
  obtain ⟨pgOpt, chOpt⟩ := st
  refine ⟨?_, ?_, ?_⟩
  · cases pgOpt with
    | none => rfl
    | some pg =>
        simp [handle_reorg_recovery, delete_events_postgres,
          rewind_checkpoint_postgres, allOk, filter_self_idem, rewind_map_idem]
        intro a _ h
        by_cases h0 : a.network = network
        · simp [h0]
        · simp [h0] at h
  · cases chOpt with
    | none => rfl
    | some ch =>
        simp [handle_reorg_recovery, delete_events_clickhouse,
          rewind_checkpoint_clickhouse, allOk, filter_self_idem]
  · cases chOpt with
    | none => rfl
    | some ch =>
        simp [handle_reorg_recovery, delete_events_clickhouse,
          rewind_checkpoint_clickhouse, allOk, clickhouse_observed_checkpoint,
          List.filter_append, List.getLast?_append]

theorem rewind_rows_spec (network : String) (rb2 : Nat)
    (l : List CheckpointRow) (hrow : ∃ c ∈ l, c.network = network) :
    (∃ c ∈ l.map (fun c => if c.network = network then
        { c with last_synced_block := rb2 } else c), c.network = network) ∧
    ∀ c ∈ l.map (fun c => if c.network = network then
        { c with last_synced_block := rb2 } else c),
      c.network = network → c.last_synced_block = rb2 := by
  constructor
  · obtain ⟨c0, hc0, hnet⟩ := hrow
    refine ⟨if c0.network = network then
        { c0 with last_synced_block := rb2 } else c0,
      List.mem_map_of_mem _ hc0, ?_⟩
    rw [if_pos hnet]
    exact hnet
  · intro c hc hnet
    obtain ⟨c0, hc0, rfl⟩ := List.mem_map.mp hc
    by_cases h0 : c0.network = network
    · rw [if_pos h0]
    · rw [if_neg h0] at hnet ⊢
      exact absurd hnet h0

/-- Claim C4: with every statement succeeding and a PostgreSQL checkpoint
row present for the network, recovery at fork block `f` rewinds the
PostgreSQL checkpoint in place (UPDATE) so every checkpoint row of the
network reads `f - 1`, appends the record `(network, f - 1)` to the
ClickHouse checkpoint log (INSERT) so a subsequent reader observes
`f - 1`, and the native-transfer entry point (PostgreSQL only, with the
fixed `native_transfer` event identity) rewinds its checkpoint rows the
same way.  `f - 1` is truncated (saturating) subtraction. -/
theorem claim_C4_checkpoint_rewind (network : String) (f d : Nat)
    (pg : PostgresState) (ch : ClickhouseState)
    (hrow : ∃ c ∈ pg.checkpoints, c.network = network) :
    (∃ pg', (handle_reorg_recovery allOk network
        ⟨some pg, some ch⟩ ⟨f, d⟩).postgres = some pg' ∧
      (∃ c ∈ pg'.checkpoints, c.network = network) ∧
      ∀ c ∈ pg'.checkpoints, c.network = network →
        c.last_synced_block = f - 1) ∧
    (∃ ch', (handle_reorg_recovery allOk network
        ⟨some pg, some ch⟩ ⟨f, d⟩).clickhouse = some ch' ∧
      ch'.checkpoint_log = ch.checkpoint_log ++ [⟨network, f - 1⟩] ∧
      clickhouse_observed_checkpoint ch'.checkpoint_log network =
        some (f - 1)) ∧
    (∃ pg2, handle_native_transfer_reorg_recovery true true network
        (some pg) f = some pg2 ∧
      (∃ c ∈ pg2.checkpoints, c.network = network) ∧
      ∀ c ∈ pg2.checkpoints, c.network = network →
        c.last_synced_block = f - 1) := by
  obtain ⟨h1, h2⟩ := rewind_rows_spec network (f - 1) pg.checkpoints hrow
  refine ⟨⟨_, rfl, h1, h2⟩, ⟨_, rfl, rfl, ?_⟩, ⟨_, rfl, h1, h2⟩⟩
  exact observed_after_insert _ network (f - 1)

/-- Witness for claim C4: fork block 50 rewinds the PostgreSQL checkpoint
row for `netEth` from 100 to 49 in place, appends `(netEth, 49)` to the
ClickHouse checkpoint log so readers observe 49, and does the same on the
native-transfer path. -/
theorem claim_C4_checkpoint_rewind_witness :
    (∃ pg', (handle_reorg_recovery allOk netEth
        ⟨some pgOneRow, some chOneCk⟩ ⟨50, 1⟩).postgres = some pg' ∧
      (∃ c ∈ pg'.checkpoints, c.network = netEth) ∧
      ∀ c ∈ pg'.checkpoints, c.network = netEth →
        c.last_synced_block = 49) ∧
    (∃ ch', (handle_reorg_recovery allOk netEth
        ⟨some pgOneRow, some chOneCk⟩ ⟨50, 1⟩).clickhouse = some ch' ∧
      ch'.checkpoint_log = chOneCk.checkpoint_log ++ [⟨netEth, 49⟩] ∧
      clickhouse_observed_checkpoint ch'.checkpoint_log netEth = some 49) ∧
    (∃ pg2, handle_native_transfer_reorg_recovery true true netEth
        (some pgOneRow) 50 = some pg2 ∧
      (∃ c ∈ pg2.checkpoints, c.network = netEth) ∧
      ∀ c ∈ pg2.checkpoints, c.network = netEth →
        c.last_synced_block = 49) :=
  claim_C4_checkpoint_rewind netEth 50 1 pgOneRow chOneCk (by decide)
